import Mathlib

/-!
Shallow embedding of the PDF outline extraction engine of this repository
(`src/adobe/process_pdfs.py`; the near-verbatim duplicate classifier in
`src/adobe/extractor/views.py` is embedded separately where it diverges).

Python strings are modelled as `List Char` over their ASCII fragment; a
Python function that can raise is modelled with `Except`/`Option`, an
exception at a call site being an `Except.error` value of the model.
Regular-expression prefix matching (`re.match`) is embedded by a
deterministic greedy matcher: in every pattern that occurs in the source,
each quantified character class is disjoint from the character that must
follow it (`\d+` before `.` or `\s`, `\s+` before `[A-Z]` or `\d`,
`[IVX]+` before `.`), so greedy matching without backtracking decides
exactly the same strings as the Python regex engine.
-/

/-- ASCII whitespace, as recognised by Python `str.strip` and regex `\s`. -/
def isPySpace (c : Char) : Bool :=
  c == ' ' || c == '\t' || c == '\n' || c == '\r' || c == '\x0b' || c == '\x0c'

/-- Python "cased" characters, restricted to ASCII letters. -/
def isCasedChar (c : Char) : Bool := c.isUpper || c.isLower

/-- Strip leading ASCII whitespace. -/
def trimLeadWS (cs : List Char) : List Char := cs.dropWhile isPySpace

/-- Strip trailing ASCII whitespace. -/
def trimTrailWS (cs : List Char) : List Char := (cs.reverse.dropWhile isPySpace).reverse

/-- Python `str.strip()`. -/
def pyStrip (cs : List Char) : List Char := trimTrailWS (trimLeadWS cs)

/-- Python `str.split('\n')`. -/
def splitLines : List Char → List (List Char)
  | [] => [[]]
  | c :: rest =>
    if c == '\n' then [] :: splitLines rest
    else
      match splitLines rest with
      | l :: ls => (c :: l) :: ls
      | [] => [[c]]

/-- Python `str.isdigit()` (ASCII): non-empty and all characters are digits. -/
def pyIsDigit (cs : List Char) : Bool := !cs.isEmpty && cs.all Char.isDigit

/-- `re.match(r'^\d+$', line)`: the source lines contain no newline, so this
is the same predicate as `pyIsDigit` on the ASCII fragment. -/
def matchAllDigits (cs : List Char) : Bool := !cs.isEmpty && cs.all Char.isDigit

/-- Python `str.isupper()`: at least one cased character, and every cased
character is uppercase. -/
def pyIsUpper (cs : List Char) : Bool :=
  cs.any isCasedChar && cs.all (fun c => !isCasedChar c || c.isUpper)

/-- State-passing scan for Python `str.istitle()`: an uppercase letter may
only follow an uncased character, a lowercase letter only a cased one. -/
def pyIsTitleGo : List Char → Bool → Bool → Bool
  | [], _, seenCased => seenCased
  | c :: rest, prevCased, seenCased =>
    if c.isUpper then !prevCased && pyIsTitleGo rest true true
    else if c.isLower then prevCased && pyIsTitleGo rest true true
    else pyIsTitleGo rest false seenCased

/-- Python `str.istitle()` (ASCII). -/
def pyIsTitle (cs : List Char) : Bool := pyIsTitleGo cs false false

/-- Python `str.lower()` (ASCII). -/
def pyLower (cs : List Char) : List Char := cs.map Char.toLower

/-- Whether `pat` occurs at the very start of `cs`. -/
def leadsList : List Char → List Char → Bool
  | [], _ => true
  | _ :: _, [] => false
  | a :: as, b :: bs => a == b && leadsList as bs

/-- Python substring test `needle in hay`. -/
def hasSubstr (needle : List Char) : List Char → Bool
  | [] => leadsList needle []
  | c :: rest => leadsList needle (c :: rest) || hasSubstr needle rest

/-- Greedy match of regex `p+` (one or more characters of class `p`),
returning the rest of the input.  Agrees with backtracking regex matching
whenever `p` is disjoint from the class of the next required character,
which holds at every use below. -/
def chompPlus (p : Char → Bool) : List Char → Option (List Char)
  | [] => none
  | c :: rest => if p c then some (rest.dropWhile p) else none

/-- Match one literal character. -/
def chompChar (a : Char) : List Char → Option (List Char)
  | [] => none
  | c :: rest => if c == a then some rest else none

/-- Regex fragment `\s+[A-Z]` at the current position. -/
def wsThenUpper (cs : List Char) : Bool :=
  match chompPlus isPySpace cs with
  | some (c :: _) => c.isUpper
  | _ => false

/-- Regex fragment `\d+\.`, shared by the numbered-section patterns. -/
def numDot (cs : List Char) : Option (List Char) :=
  (chompPlus Char.isDigit cs).bind (chompChar '.')

/-- `re.match(r'^\d+\.\s+[A-Z]', line)`  (process_pdfs.py line 123). -/
def matchNum1 (cs : List Char) : Bool :=
  match numDot cs with
  | some r => wsThenUpper r
  | none => false

/-- `re.match(r'^\d+\.\d+\s+[A-Z]', line)`  (process_pdfs.py line 125). -/
def matchNum2 (cs : List Char) : Bool :=
  match numDot cs with
  | some r =>
    match chompPlus Char.isDigit r with
    | some r2 => wsThenUpper r2
    | none => false
  | none => false

/-- `re.match(r'^\d+\.\d+\.\d+\s+[A-Z]', line)`  (process_pdfs.py line 127). -/
def matchNum3 (cs : List Char) : Bool :=
  match numDot cs with
  | some r =>
    match numDot r with
    | some r2 =>
      match chompPlus Char.isDigit r2 with
      | some r3 => wsThenUpper r3
      | none => false
    | none => false
  | none => false

/-- Case-insensitive literal match; `lit` is given in lowercase. -/
def chompLitCI (lit : List Char) (cs : List Char) : Option (List Char) :=
  match lit, cs with
  | [], rest => some rest
  | _ :: _, [] => none
  | l :: ls, c :: rest => if c.toLower == l then chompLitCI ls rest else none

/-- `re.match(r'^(Chapter|Section|Part)\s+\d+', line, re.IGNORECASE)`
(process_pdfs.py line 131). -/
def matchChapterKw (cs : List Char) : Bool :=
  match (chompLitCI "chapter".data cs).orElse
      (fun _ => (chompLitCI "section".data cs).orElse
        (fun _ => chompLitCI "part".data cs)) with
  | some r =>
    match chompPlus isPySpace r with
    | some (c :: _) => c.isDigit
    | _ => false
  | none => false

/-- The character class `[IVX]`. -/
def isRomanChar (c : Char) : Bool := c == 'I' || c == 'V' || c == 'X'

/-- `re.match(r'^[IVX]+\.\s+[A-Z]', line)`  (process_pdfs.py line 150). -/
def matchRoman (cs : List Char) : Bool :=
  match (chompPlus isRomanChar cs).bind (chompChar '.') with
  | some r => wsThenUpper r
  | none => false

/-- `re.match(r'^[A-Z]\.\s+[A-Z]', line)`  (process_pdfs.py line 154). -/
def matchAlphaSec : List Char → Bool
  | [] => false
  | c :: rest =>
    c.isUpper &&
      (match chompChar '.' rest with
       | some r => wsThenUpper r
       | none => false)

/-- `re.match(r'^[A-Z][A-Z\s]+[A-Z]$', line)`: at least three characters,
uppercase letters at both ends, uppercase letters or whitespace in between.
Lines are stripped results of `split('\n')`, so `$` is plain end-of-string. -/
def matchAllCapsShape (cs : List Char) : Bool :=
  match cs with
  | [] => false
  | c :: rest =>
    c.isUpper &&
      (match rest.getLast? with
       | some z => z.isUpper
       | none => false) &&
      decide (2 ≤ rest.length) &&
      rest.dropLast.all (fun d => d.isUpper || isPySpace d)

/-- A glyph record from `page.chars`; `size = none` models a record without
a `'size'` key (process_pdfs.py line 85). -/
structure Glyph where
  size : Option ℚ

/-- A pdfplumber page.  `textResult` is the outcome of `page.extract_text()`
(`Except.error` models an exception; `[]` models both `None` and the empty
string, which the source only ever distinguishes by falsiness).  `charsOk`
records whether accessing `page.chars` succeeds. -/
structure Page where
  textResult : Except Unit (List Char)
  charsOk : Bool
  chars : List Glyph

/-- A PyPDF2 page; `[]` models a falsy `extract_text()` result. -/
structure PlainPage where
  text : List Char

/-- A PyPDF2 reader: document metadata as key/value pairs (`[]` models
absent or empty metadata, both falsy in the source) and the page list. -/
structure PlainReader where
  metadata : List (List Char × List Char)
  pages : List PlainPage

/-- One input file: the outcome of opening it through each backend.  An
`Except.error` models any exception raised inside the corresponding `try`
block of the source. -/
structure PdfFile where
  richOpen : Except (List Char) (List Page)
  plainOpen : Except (List Char) PlainReader

/-- One outline entry, the Python dict `{"level": …, "text": …, "page": …}`. -/
structure HeadingEntry where
  level : List Char
  text : List Char
  page : Nat
deriving DecidableEq, Repr

/-- The dict returned by the extraction entry points.  `error = none`
models the absence of an `"error"` key. -/
structure Document where
  title : List Char
  outline : List HeadingEntry
  error : Option (List Char)
deriving DecidableEq, Repr

/-- Descending insertion, for `sorted(font_sizes.keys(), reverse=True)`. -/
def insertDescQ (x : ℚ) : List ℚ → List ℚ
  | [] => [x]
  | y :: ys => if y < x then x :: y :: ys else y :: insertDescQ x ys

/-- The distinct glyph font sizes of a page, sorted descending
(process_pdfs.py lines 83-90).  The source also counts occurrences per size
(the `font_sizes` dict values) but only the sorted key list is ever read. -/
def sortedFontSizes (chars : List Glyph) : List ℚ :=
  ((chars.filterMap Glyph.size).dedup).foldr insertDescQ []

/-- Keyword list of process_pdfs.py line 142. -/
def kwTitleH1 : List (List Char) :=
  ["introduction".data, "conclusion".data, "overview".data, "summary".data,
   "abstract".data]

/-- Keyword list of process_pdfs.py line 144. -/
def kwTitleH2 : List (List Char) :=
  ["method".data, "result".data, "discussion".data, "analysis".data]

/-- `detect_heading_level` (process_pdfs.py lines 118-157): the primary
rule cascade.  `sorted_sizes` is accepted but never inspected by the body,
exactly as in the source. -/
def detect_heading_level (line : List Char) (sorted_sizes : List ℚ) :
    Option (List Char) :=
  if matchNum1 line then some "H1".data
  else if matchNum2 line then some "H2".data
  else if matchNum3 line then some "H3".data
  else if matchChapterKw line then some "H1".data
  else if pyIsUpper line && decide (4 ≤ line.length) && decide (line.length ≤ 100)
  then some "H1".data
  else if pyIsTitle line && decide (5 ≤ line.length) && decide (line.length ≤ 100)
  then
    (if kwTitleH1.any (fun w => hasSubstr w (pyLower line)) then some "H1".data
     else if kwTitleH2.any (fun w => hasSubstr w (pyLower line)) then some "H2".data
     else some "H2".data)
  else if matchRoman line then some "H1".data
  else if matchAlphaSec line then some "H2".data
  else none

/-- The scan loop of `extract_title_from_page` (process_pdfs.py lines
57-62).  The source nests the `^\d+$` test inside the outer condition and
`continue`s when it matches, which is the same as conjoining its negation. -/
def titleScanRich : List (List Char) → List Char
  | [] => []
  | raw :: rest =>
    let line := pyStrip raw
    if !line.isEmpty && decide (3 < line.length) && !pyIsDigit line &&
        !matchAllDigits line
    then line else titleScanRich rest

/-- `extract_title_from_page` (process_pdfs.py lines 48-66). -/
def extract_title_from_page (page : Page) : List Char :=
  match page.textResult with
  | .error _ => []
  | .ok text =>
    if text.isEmpty then []
    else titleScanRich (splitLines text)

/-- The loop body shared verbatim by `extract_headings_fallback`
(process_pdfs.py lines 171-200) and `extract_headings_from_text`
(lines 253-282): strip the line, skip blank or short lines, then apply the
reduced pattern cascade. -/
def fallbackLine (raw : List Char) (page_num : Nat) : List HeadingEntry :=
  let line := pyStrip raw
  if line.isEmpty || decide (line.length < 3) then []
  else if matchAllCapsShape line && decide (4 ≤ line.length) &&
      decide (line.length ≤ 100)
  then [⟨"H1".data, line, page_num⟩]
  else if matchNum1 line then [⟨"H1".data, line, page_num⟩]
  else if matchNum2 line then [⟨"H2".data, line, page_num⟩]
  else if matchNum3 line then [⟨"H3".data, line, page_num⟩]
  else []

/-- `extract_headings_from_text` (process_pdfs.py lines 248-284). -/
def extract_headings_from_text (text : List Char) (page_num : Nat) :
    List HeadingEntry :=
  (splitLines text).flatMap (fun raw => fallbackLine raw page_num)

/-- `extract_headings_fallback` (process_pdfs.py lines 160-204).  An
exception from `page.extract_text()` is caught by the inner `try`, leaving
the collected list empty. -/
def extract_headings_fallback (page : Page) (page_num : Nat) :
    List HeadingEntry :=
  match page.textResult with
  | .error _ => []
  | .ok text =>
    if text.isEmpty then []
    else (splitLines text).flatMap (fun raw => fallbackLine raw page_num)

/-- `extract_headings_from_page` (process_pdfs.py lines 69-115): the rich
path per page; any exception (from `extract_text` or `page.chars`) routes
the page to `extract_headings_fallback`. -/
def extract_headings_from_page (page : Page) (page_num : Nat) :
    List HeadingEntry :=
  match page.textResult with
  | .error _ => extract_headings_fallback page page_num
  | .ok text =>
    if text.isEmpty then []
    else if page.charsOk then
      (splitLines text).flatMap (fun raw =>
        let line := pyStrip raw
        if line.isEmpty || decide (line.length < 3) then []
        else
          match detect_heading_level line (sortedFontSizes page.chars) with
          | some lvl => [⟨lvl, line, page_num⟩]
          | none => [])
    else extract_headings_fallback page page_num

/-- The title scan loop inside `extract_with_pypdf2` (process_pdfs.py
lines 224-229). -/
def titleScanPlain : List (List Char) → List Char
  | [] => []
  | raw :: rest =>
    let line := pyStrip raw
    if !line.isEmpty && decide (3 < line.length) && !pyIsDigit line then line
    else titleScanPlain rest

/-- Association-list lookup for the metadata mapping. -/
def lookupMeta (key : List Char) : List (List Char × List Char) → Option (List Char)
  | [] => none
  | (k, v) :: rest => if k = key then some v else lookupMeta key rest

/-- Python `enumerate(pages, n)`. -/
def enumFrom (n : Nat) : List α → List (Nat × α)
  | [] => []
  | a :: l => (n, a) :: enumFrom (n + 1) l

/-- `extract_with_pypdf2` (process_pdfs.py lines 207-245): the plain
backend.  The `except` branch (lines 240-245) returns a dict with no
`"error"` key. -/
def extract_with_pypdf2 (pdf : PdfFile) : Document :=
  match pdf.plainOpen with
  | .error _ =>
    { title := "Error extracting title".data, outline := [], error := none }
  | .ok reader =>
    { title :=
        if !reader.metadata.isEmpty &&
            (lookupMeta "/Title".data reader.metadata).isSome then
          (lookupMeta "/Title".data reader.metadata).getD []
        else
          match reader.pages with
          | [] => []
          | p0 :: _ =>
            if p0.text.isEmpty then []
            else titleScanPlain (splitLines p0.text)
      outline :=
        (enumFrom 1 reader.pages).flatMap (fun np =>
          if np.2.text.isEmpty then []
          else extract_headings_from_text np.2.text np.1)
      error := none }

/-- `extract_pdf_outline` (process_pdfs.py lines 17-45): the top-level
pipeline.  A failure of the rich open falls back to the plain backend for
the whole document. -/
def extract_pdf_outline (pdf : PdfFile) : Document :=
  match pdf.richOpen with
  | .error _ => extract_with_pypdf2 pdf
  | .ok pages =>
    { title :=
        match pages with
        | [] => []
        | p0 :: _ => extract_title_from_page p0
      outline :=
        (enumFrom 1 pages).flatMap (fun np =>
          extract_headings_from_page np.2 np.1)
      error := none }

/-- `re.match(r'^\d+\.\s+', line)` (views.py line 243; no capital
required). -/
def matchNum1V (cs : List Char) : Bool :=
  match numDot cs with
  | some r => (chompPlus isPySpace r).isSome
  | none => false

/-- `re.match(r'^\d+\.\d+\s+', line)` (views.py line 245). -/
def matchNum2V (cs : List Char) : Bool :=
  match numDot cs with
  | some r =>
    match chompPlus Char.isDigit r with
    | some r2 => (chompPlus isPySpace r2).isSome
    | none => false
  | none => false

/-- `re.match(r'^\d+\.\d+\.\d+\s+', line)` (views.py line 247). -/
def matchNum3V (cs : List Char) : Bool :=
  match numDot cs with
  | some r =>
    match numDot r with
    | some r2 =>
      match chompPlus Char.isDigit r2 with
      | some r3 => (chompPlus isPySpace r3).isSome
      | none => false
    | none => false
  | none => false

/-- Keyword list of views.py line 259. -/
def kwViews : List (List Char) :=
  ["chapter".data, "section".data, "introduction".data, "conclusion".data,
   "overview".data, "summary".data]

/-- The duplicate classifier `detect_heading_level` of views.py lines
238-269.  Its final font-size branch (`if sorted_sizes and
len(sorted_sizes) > 2: pass`, lines 264-267) executes no statement, so the
embedding has no corresponding case; `chars` and `sorted_sizes` are
accepted and ignored exactly as in the source. -/
def detect_heading_level_views (line : List Char) (chars : List Glyph)
    (sorted_sizes : List ℚ) : Option (List Char) :=
  if matchNum1V line then some "H1".data
  else if matchNum2V line then some "H2".data
  else if matchNum3V line then some "H3".data
  else if pyIsUpper line && decide (3 < line.length) then some "H1".data
  else if pyIsTitle line && decide (10 ≤ line.length) && decide (line.length ≤ 100)
  then some "H2".data
  else if kwViews.any (fun w => hasSubstr w (pyLower line)) then some "H2".data
  else none

/-- The title-choice sentence of spec §4.2, written from the spec's words
rather than from the source (refinement target for the two scan loops):
the first trimmed line that is non-empty, longer than 3 characters, and
not purely numeric; empty string when no line qualifies. -/
def titleSpecPick (text : List Char) : List Char :=
  (((splitLines text).map pyStrip).find?
    (fun l => !l.isEmpty && decide (3 < l.length) && !pyIsDigit l)).getD []

/-- Concrete input where both backend opens raise. -/
def pdfBothFailA : PdfFile :=
  ⟨.error "pdfplumber open raised".data, .error "PyPDF2 open raised".data⟩

/-- A second concrete input where both backend opens raise. -/
def pdfBothFailB : PdfFile :=
  ⟨.error "damaged xref table".data, .error "bad file header".data⟩

/-- A third concrete input where both backend opens raise. -/
def pdfBothFailC : PdfFile :=
  ⟨.error "not a PDF".data, .error "stream truncated".data⟩

/-- Concrete input where the rich open raises and the plain reader exposes
a metadata Title. -/
def pdfPlainMeta : PdfFile :=
  ⟨.error "pdfplumber open raised".data,
   .ok ⟨[("/Title".data, "Report X".data)], [⟨"Scanned First Line".data⟩]⟩⟩

/-- A rich page whose text is a single numbered heading line. -/
def pgIntro : Page := ⟨.ok "1. Introduction".data, true, []⟩

/-- A rich page whose `chars` access raises (`charsOk = false`). -/
def pgBroken : Page := ⟨.ok "1.1 Background".data, false, []⟩

/-- A rich page with a three-level numbered heading line. -/
def pgDeep : Page := ⟨.ok "1.1.1 Related Work".data, true, []⟩

/-- Concrete rich-path input whose middle page fails glyph extraction. -/
def pdfMidFail : PdfFile :=
  ⟨.ok [pgIntro, pgBroken, pgDeep], .error "unused".data⟩

/-- Concrete one-page rich-path input. -/
def pdfOnePage : PdfFile :=
  ⟨.ok [⟨.ok "1. Introduction".data, true, []⟩], .error "unused".data⟩

/-- Concrete one-page rich-path input with surrounding whitespace. -/
def pdfOnePageB : PdfFile :=
  ⟨.ok [⟨.ok "  SUMMARY  \nx".data, true, []⟩], .error "unused".data⟩

/-! ### Helper lemmas about the matchers -/

theorem chompPlus_eq_some {p : Char → Bool} {cs r : List Char}
    (h : chompPlus p cs = some r) : ∃ c rest, cs = c :: rest ∧ p c = true := by
  cases cs with
  | nil => exact absurd h (by simp [chompPlus])
  | cons c rest =>
    refine ⟨c, rest, rfl, ?_⟩
    by_cases hp : p c = true
    · exact hp
    · rw [chompPlus, if_neg hp] at h
      exact absurd h (by simp)

theorem chompChar_eq_some {a : Char} {cs r : List Char}
    (h : chompChar a cs = some r) : cs = a :: r := by
  cases cs with
  | nil => exact absurd h (by simp [chompChar])
  | cons c rest =>
    rw [chompChar] at h
    by_cases hc : (c == a) = true
    · rw [if_pos hc] at h
      obtain rfl : rest = r := by injection h
      rw [eq_of_beq hc]
    · rw [if_neg hc] at h
      exact absurd h (by simp)

theorem wsThenUpper_cons_of_not_space {c : Char} {rest : List Char}
    (h : isPySpace c = false) : wsThenUpper (c :: rest) = false := by
  rw [wsThenUpper, chompPlus]
  simp [h]

theorem not_space_of_digit {c : Char} (h : c.isDigit = true) :
    isPySpace c = false := by
  cases hs : isPySpace c
  · rfl
  · exfalso
    simp only [isPySpace, Bool.or_eq_true, beq_iff_eq] at hs
    rcases hs with ((((rfl | rfl) | rfl) | rfl) | rfl) | rfl <;>
      exact absurd h (by decide)

theorem numDot_digit_start {r r2 : List Char} (h : numDot r = some r2) :
    ∃ c rest, r = c :: rest ∧ c.isDigit = true := by
  rw [numDot] at h
  cases hcp : chompPlus Char.isDigit r with
  | none => rw [hcp] at h; exact absurd h (by simp)
  | some m => exact chompPlus_eq_some hcp

theorem matchNum3_parts {line : List Char} (h : matchNum3 line = true) :
    ∃ r r2, numDot line = some r ∧ numDot r = some r2 := by
  rw [matchNum3] at h
  cases hnd : numDot line with
  | none => simp [hnd] at h
  | some r =>
    simp only [hnd] at h
    cases hnd2 : numDot r with
    | none => simp [hnd2] at h
    | some r2 => exact ⟨r, r2, rfl, hnd2⟩

theorem matchNum3_not_matchNum1 {line : List Char} (h : matchNum3 line = true) :
    matchNum1 line = false := by
  obtain ⟨r, r2, hnd, hnd2⟩ := matchNum3_parts h
  rw [matchNum1]
  simp only [hnd]
  obtain ⟨c, rest, rfl, hc⟩ := numDot_digit_start hnd2
  exact wsThenUpper_cons_of_not_space (not_space_of_digit hc)

theorem matchNum3_not_matchNum2 {line : List Char} (h : matchNum3 line = true) :
    matchNum2 line = false := by
  obtain ⟨r, r2, hnd, hnd2⟩ := matchNum3_parts h
  rw [matchNum2]
  simp only [hnd]
  rw [numDot] at hnd2
  cases hcp : chompPlus Char.isDigit r with
  | none => simp [hcp] at hnd2
  | some m =>
    rw [hcp] at hnd2
    simp only [Option.some_bind] at hnd2
    simp only [hcp, chompChar_eq_some hnd2]
    exact wsThenUpper_cons_of_not_space (by decide)

/-! ### Claim theorems -/

/-- C1: for every input, `extract_pdf_outline` is total (it is a Lean
function into `Document`, so it returns a Document with a string title and
an outline list and raises nothing); a failure of the rich backend is
recovered by reprocessing the whole document with the plain backend, and a
failure of the plain backend as well yields the TotalFailure Document. -/
theorem C1_pipeline_fallback_total :
    ∀ (pdf : PdfFile) (msg : List Char), pdf.richOpen = .error msg →
      extract_pdf_outline pdf = extract_with_pypdf2 pdf ∧
      (∀ msg2 : List Char, pdf.plainOpen = .error msg2 →
        extract_pdf_outline pdf =
          { title := "Error extracting title".data, outline := [],
            error := none }) := by
  intro pdf msg h
  constructor
  · rw [extract_pdf_outline, h]
  · intro msg2 h2
    rw [extract_pdf_outline, h, extract_with_pypdf2, h2]

/-- C1 witness: a concrete input on which both backends fail. -/
theorem C1_witness :
    extract_pdf_outline pdfBothFailA =
      { title := "Error extracting title".data, outline := [],
        error := none } :=
  (C1_pipeline_fallback_total pdfBothFailA "pdfplumber open raised".data
    rfl).2 "PyPDF2 open raised".data rfl

/-- C2 counterexample: on a concrete input where both backends fail, the
returned Document carries NO error field (`error = none`), contrary to the
claim that the error field is present with a non-empty message; the source
dict at process_pdfs.py lines 242-245 has only `title` and `outline`. -/
theorem C2_counterexample :
    (extract_pdf_outline pdfBothFailB).error = none ∧
    (extract_pdf_outline pdfBothFailB).title = "Error extracting title".data ∧
    (extract_pdf_outline pdfBothFailB).outline = [] :=
  ⟨rfl, rfl, rfl⟩

/-- C2 amended: if both backends fail, the returned Document equals
`{ title: "Error extracting title", outline: [] }` with no error field at
all (`error = none` in the model). -/
theorem C2_total_failure_document :
    ∀ (pdf : PdfFile) (m1 m2 : List Char),
      pdf.richOpen = .error m1 → pdf.plainOpen = .error m2 →
      extract_pdf_outline pdf =
        { title := "Error extracting title".data, outline := [],
          error := none } := by
  intro pdf m1 m2 h1 h2
  rw [extract_pdf_outline, h1, extract_with_pypdf2, h2]

/-- C2 witness for the amended statement. -/
theorem C2_witness :
    extract_pdf_outline pdfBothFailC =
      { title := "Error extracting title".data, outline := [],
        error := none } :=
  C2_total_failure_document pdfBothFailC "not a PDF".data
    "stream truncated".data rfl rfl

/-- C3: the numbered-section rules are checked one-level, then two-level,
then three-level (the order of the if/elif chain in the definition of
`detect_heading_level`); a line matching the three-level pattern matches
neither the one- nor the two-level pattern, and the three example lines
classify as H1, H2, H3 respectively. -/
theorem C3_numbered_cascade :
    (∀ line : List Char, matchNum3 line = true →
      matchNum1 line = false ∧ matchNum2 line = false) ∧
    (∀ (line : List Char) (s : List ℚ), matchNum3 line = true →
      detect_heading_level line s = some "H3".data) ∧
    (∀ s : List ℚ,
      detect_heading_level "1. Introduction".data s = some "H1".data) ∧
    (∀ s : List ℚ,
      detect_heading_level "1.1 Background".data s = some "H2".data) ∧
    (∀ s : List ℚ,
      detect_heading_level "1.1.1 Related Work".data s = some "H3".data) := by
  refine ⟨fun line h => ⟨matchNum3_not_matchNum1 h, matchNum3_not_matchNum2 h⟩,
    fun line s h => ?_, fun s => rfl, fun s => rfl, fun s => rfl⟩
  rw [detect_heading_level, matchNum3_not_matchNum1 h,
    matchNum3_not_matchNum2 h, h]
  simp

/-- C3 witness: instantiation of the universal parts at the three-level
example line. -/
theorem C3_witness :
    matchNum1 "1.1.1 Related Work".data = false ∧
    matchNum2 "1.1.1 Related Work".data = false ∧
    detect_heading_level "1.1.1 Related Work".data [] = some "H3".data :=
  ⟨(C3_numbered_cascade.1 "1.1.1 Related Work".data (by decide)).1,
   (C3_numbered_cascade.1 "1.1.1 Related Work".data (by decide)).2,
   C3_numbered_cascade.2.1 "1.1.1 Related Work".data [] (by decide)⟩

/-- C7: the font-size histogram has no effect on classification — both the
process_pdfs classifier and the views duplicate return the same level for
any two size lists (and any two glyph lists); classification is a function
of the line text alone. -/
theorem C7_histogram_inert :
    ∀ (line : List Char) (s1 s2 : List ℚ) (c1 c2 : List Glyph),
      detect_heading_level line s1 = detect_heading_level line s2 ∧
      detect_heading_level_views line c1 s1 = detect_heading_level_views line c2 s2 :=
  fun _ _ _ _ _ => ⟨rfl, rfl⟩

/-- C4: on a trimmed line in title case with length in [5,100] reached past
the earlier cascade rules, the classifier returns H1 when the line
case-insensitively contains one of the five H1 keywords and H2 otherwise;
"Conclusion And Future Work" classifies H1 and "Experimental Results" H2. -/
theorem C4_title_case_rule :
    (∀ (line : List Char) (s : List ℚ),
      matchNum1 line = false → matchNum2 line = false → matchNum3 line = false →
      matchChapterKw line = false →
      (pyIsUpper line && decide (4 ≤ line.length) &&
        decide (line.length ≤ 100)) = false →
      pyIsTitle line = true → 5 ≤ line.length → line.length ≤ 100 →
      detect_heading_level line s =
        some (if kwTitleH1.any (fun w => hasSubstr w (pyLower line))
              then "H1".data else "H2".data)) ∧
    (∀ s : List ℚ,
      detect_heading_level "Conclusion And Future Work".data s = some "H1".data) ∧
    (∀ s : List ℚ,
      detect_heading_level "Experimental Results".data s = some "H2".data) := by
  refine ⟨?_, fun s => rfl, fun s => rfl⟩
  intro line s h1 h2 h3 h4 h5 ht hlen1 hlen2
  have hcond : (pyIsTitle line && decide (5 ≤ line.length) &&
      decide (line.length ≤ 100)) = true := by
    rw [ht]
    simp [hlen1, hlen2]
  rw [detect_heading_level, h1, h2, h3, h4, h5, hcond]
  cases hk1 : kwTitleH1.any (fun w => hasSubstr w (pyLower line)) <;>
    cases hk2 : kwTitleH2.any (fun w => hasSubstr w (pyLower line)) <;>
      simp [hk1, hk2]

/-- C4 witness: instantiation at a concrete keyword-free title-case line. -/
theorem C4_witness :
    detect_heading_level "Quiet Garden Path".data [] =
      some (if kwTitleH1.any
              (fun w => hasSubstr w (pyLower "Quiet Garden Path".data))
            then "H1".data else "H2".data) :=
  C4_title_case_rule.1 "Quiet Garden Path".data [] (by decide) (by decide)
    (by decide) (by decide) (by decide) (by decide) (by decide) (by decide)

/-- C5 counterexample: "AB-CDE" is fully upper-case (Python `isupper`) with
length 6 in [4,100], yet the reduced cascade classifies it as no heading at
all — its all-caps test is the regex `^[A-Z][A-Z\s]+[A-Z]$`, which rejects
the hyphen, so the claimed "exactly when the length is in [4,100]" fails in
the reduced cascade. -/
theorem C5_counterexample :
    pyIsUpper "AB-CDE".data = true ∧
    4 ≤ ("AB-CDE".data).length ∧ ("AB-CDE".data).length ≤ 100 ∧
    extract_headings_from_text "AB-CDE".data 1 = [] :=
  ⟨rfl, by decide, by decide, rfl⟩

/-- C5 amended: in the primary cascade, past the earlier rules, a fully
upper-case line is classified H1 by the all-caps rule exactly when its
length is in [4,100]; outside that range the only remaining rules are the
Roman-numeral rule (H1) and the letter-section rule (H2).  In the reduced
cascade (`fallbackLine`, the loop body of `extract_headings_from_text` and
`extract_headings_fallback`), past the numbered patterns, a line is
classified H1 exactly when it matches `^[A-Z][A-Z\s]+[A-Z]$` AND its
length is in [4,100]; a line failing that shape — even a fully upper-case
one such as "AB-CDE" — yields no heading. -/
theorem C5_allcaps_rule_scoped :
    (∀ (line : List Char) (s : List ℚ),
      matchNum1 line = false → matchNum2 line = false → matchNum3 line = false →
      matchChapterKw line = false → pyIsUpper line = true →
      4 ≤ line.length → line.length ≤ 100 →
      detect_heading_level line s = some "H1".data) ∧
    (∀ (line : List Char) (s : List ℚ),
      matchNum1 line = false → matchNum2 line = false → matchNum3 line = false →
      matchChapterKw line = false → pyIsUpper line = true →
      ¬(4 ≤ line.length ∧ line.length ≤ 100) →
      detect_heading_level line s =
        (if matchRoman line then some "H1".data
         else if matchAlphaSec line then some "H2".data else none)) ∧
    (∀ (line : List Char) (pn : Nat),
      pyStrip line = line →
      matchNum1 line = false → matchNum2 line = false → matchNum3 line = false →
      (fallbackLine line pn = [⟨"H1".data, line, pn⟩] ↔
        (matchAllCapsShape line = true ∧ 4 ≤ line.length ∧
          line.length ≤ 100))) ∧
    (∀ (line : List Char) (pn : Nat),
      pyStrip line = line → matchAllCapsShape line = false →
      matchNum1 line = false → matchNum2 line = false → matchNum3 line = false →
      fallbackLine line pn = []) := by
  refine ⟨?_, ?_, ?_, ?_⟩
  · intro line s h1 h2 h3 h4 hu hlen1 hlen2
    have hcond : (pyIsUpper line && decide (4 ≤ line.length) &&
        decide (line.length ≤ 100)) = true := by
      rw [hu]
      simp [hlen1, hlen2]
    rw [detect_heading_level, h1, h2, h3, h4, hcond]
    simp
  · intro line s h1 h2 h3 h4 hu hlen
    have hcond : (pyIsUpper line && decide (4 ≤ line.length) &&
        decide (line.length ≤ 100)) = false := by
      rcases not_and_or.mp hlen with h | h
      · simp [decide_eq_false h]
      · simp [decide_eq_false h]
    have htitle : (pyIsTitle line && decide (5 ≤ line.length) &&
        decide (line.length ≤ 100)) = false := by
      rcases not_and_or.mp hlen with h | h
      · have : ¬(5 ≤ line.length) := by omega
        simp [decide_eq_false this]
      · simp [decide_eq_false h]
    rw [detect_heading_level, h1, h2, h3, h4, hcond, htitle]
    simp
  · intro line pn hstrip h1 h2 h3
    simp only [fallbackLine, hstrip, h1, h2, h3]
    constructor
    · intro heq
      by_cases hguard : (line.isEmpty || decide (line.length < 3)) = true
      · rw [if_pos hguard] at heq
        exact absurd heq (by simp)
      · rw [if_neg hguard] at heq
        by_cases hcap : (matchAllCapsShape line && decide (4 ≤ line.length) &&
            decide (line.length ≤ 100)) = true
        · have hc : (matchAllCapsShape line = true ∧ 4 ≤ line.length) ∧
              line.length ≤ 100 := by simpa using hcap
          exact ⟨hc.1.1, hc.1.2, hc.2⟩
        · rw [if_neg hcap] at heq
          simp at heq
    · rintro ⟨hshape, hlen1, hlen2⟩
      have hguard : (line.isEmpty || decide (line.length < 3)) = false := by
        have hne : line.isEmpty = false := by
          cases line with
          | nil => simp at hlen1
          | cons a t => rfl
        have : ¬(line.length < 3) := by omega
        simp [hne, decide_eq_false this]
      have hcap : (matchAllCapsShape line && decide (4 ≤ line.length) &&
          decide (line.length ≤ 100)) = true := by
        rw [hshape]
        simp [hlen1, hlen2]
      rw [hguard, hcap]
      simp
  · intro line pn hstrip hshape h1 h2 h3
    simp only [fallbackLine, hstrip, h1, h2, h3, hshape]
    by_cases hguard : (line.isEmpty || decide (line.length < 3)) = true
    · rw [if_pos hguard]
    · rw [if_neg hguard]
      simp

/-- C5 witness for the amended statement: the primary all-caps rule fires
on "INTRODUCTION". -/
theorem C5_witness :
    detect_heading_level "INTRODUCTION".data [] = some "H1".data :=
  C5_allcaps_rule_scoped.1 "INTRODUCTION".data [] (by decide) (by decide)
    (by decide) (by decide) (by decide) (by decide) (by decide)

theorem richCond_eq (l : List Char) :
    (!l.isEmpty && decide (3 < l.length) && !pyIsDigit l && !matchAllDigits l)
      = (!l.isEmpty && decide (3 < l.length) && !pyIsDigit l) := by
  have h : matchAllDigits l = pyIsDigit l := rfl
  rw [h]
  cases pyIsDigit l <;> simp

theorem titleScanRich_eq_find (ls : List (List Char)) :
    titleScanRich ls =
      (((ls.map pyStrip).find?
        (fun l => !l.isEmpty && decide (3 < l.length) && !pyIsDigit l)).getD []) := by
  induction ls with
  | nil => rfl
  | cons raw rest ih =>
    simp only [titleScanRich, List.map_cons, List.find?_cons]
    rw [richCond_eq]
    by_cases hp : (!(pyStrip raw).isEmpty && decide (3 < (pyStrip raw).length) &&
        !pyIsDigit (pyStrip raw)) = true
    · rw [if_pos hp, hp]
      rfl
    · rw [if_neg hp]
      have hp' : (!(pyStrip raw).isEmpty && decide (3 < (pyStrip raw).length) &&
          !pyIsDigit (pyStrip raw)) = false := by
        cases hb : (!(pyStrip raw).isEmpty && decide (3 < (pyStrip raw).length) &&
            !pyIsDigit (pyStrip raw))
        · rfl
        · exact absurd hb hp
      rw [hp']
      exact ih

theorem titleScanPlain_eq_find (ls : List (List Char)) :
    titleScanPlain ls =
      (((ls.map pyStrip).find?
        (fun l => !l.isEmpty && decide (3 < l.length) && !pyIsDigit l)).getD []) := by
  induction ls with
  | nil => rfl
  | cons raw rest ih =>
    simp only [titleScanPlain, List.map_cons, List.find?_cons]
    by_cases hp : (!(pyStrip raw).isEmpty && decide (3 < (pyStrip raw).length) &&
        !pyIsDigit (pyStrip raw)) = true
    · rw [if_pos hp, hp]
      rfl
    · rw [if_neg hp]
      have hp' : (!(pyStrip raw).isEmpty && decide (3 < (pyStrip raw).length) &&
          !pyIsDigit (pyStrip raw)) = false := by
        cases hb : (!(pyStrip raw).isEmpty && decide (3 < (pyStrip raw).length) &&
            !pyIsDigit (pyStrip raw))
        · rfl
        · exact absurd hb hp
      rw [hp']
      exact ih

theorem lookupMeta_ne_nil {key v : List Char} {m : List (List Char × List Char)}
    (h : lookupMeta key m = some v) : m.isEmpty = false := by
  cases m with
  | nil => exact absurd h (by simp [lookupMeta])
  | cons kv rest => rfl

/-- C6: title detection returns the first trimmed line of the first page's
text that is non-empty, longer than 3 characters and not purely numeric
(`titleSpecPick`, written from the spec's words); on the plain-backend
path a non-empty metadata Title is preferred over any scanned line; with
no metadata Title the plain path scans the first page, yielding the empty
string when nothing qualifies. -/
theorem C6_title_detection :
    (∀ (page : Page) (text : List Char), page.textResult = .ok text →
      extract_title_from_page page = titleSpecPick text) ∧
    (∀ (pdf : PdfFile) (p0 : Page) (rest : List Page),
      pdf.richOpen = .ok (p0 :: rest) →
      (extract_pdf_outline pdf).title = extract_title_from_page p0) ∧
    (∀ (pdf : PdfFile) (reader : PlainReader) (v : List Char),
      pdf.plainOpen = .ok reader →
      lookupMeta "/Title".data reader.metadata = some v → v ≠ [] →
      (extract_with_pypdf2 pdf).title = v) ∧
    (∀ (pdf : PdfFile) (reader : PlainReader) (p0 : PlainPage)
        (rest : List PlainPage),
      pdf.plainOpen = .ok reader →
      lookupMeta "/Title".data reader.metadata = none →
      reader.pages = p0 :: rest →
      (extract_with_pypdf2 pdf).title = titleSpecPick p0.text) ∧
    (∀ (pdf : PdfFile) (reader : PlainReader),
      pdf.plainOpen = .ok reader →
      lookupMeta "/Title".data reader.metadata = none →
      reader.pages = [] →
      (extract_with_pypdf2 pdf).title = []) := by
  refine ⟨?_, ?_, ?_, ?_, ?_⟩
  · intro page text h
    rw [extract_title_from_page, h]
    cases text with
    | nil => rfl
    | cons c cs =>
      simp only [List.isEmpty_cons, if_false]
      rw [titleScanRich_eq_find]
      rfl
  · intro pdf p0 rest h
    rw [extract_pdf_outline, h]
  · intro pdf reader v h hl hv
    rw [extract_with_pypdf2, h]
    simp only [lookupMeta_ne_nil hl, hl]
    rfl
  · intro pdf reader p0 rest h hl hp
    rw [extract_with_pypdf2, h]
    simp only [hl, Option.isSome_none, Bool.and_false, hp]
    cases ht : p0.text with
    | nil => rfl
    | cons c cs =>
      simp only [List.isEmpty_cons, if_false]
      rw [titleScanPlain_eq_find]
      rfl
  · intro pdf reader h hl hp
    rw [extract_with_pypdf2, h]
    simp only [hl, Option.isSome_none, Bool.and_false, hp]
    simp

/-- C6 witness: the plain path prefers the non-empty metadata Title
"Report X" over the scannable first line. -/
theorem C6_witness :
    (extract_with_pypdf2 pdfPlainMeta).title = "Report X".data :=
  C6_title_detection.2.2.1 pdfPlainMeta
    ⟨[("/Title".data, "Report X".data)], [⟨"Scanned First Line".data⟩]⟩
    "Report X".data rfl rfl (by decide)

theorem dropWhile_head_not {p : Char → Bool} {l : List Char} {c : Char}
    {rest : List Char} (h : l.dropWhile p = c :: rest) : p c = false := by
  induction l with
  | nil => exact absurd h (by simp)
  | cons a t ih =>
    rw [List.dropWhile_cons] at h
    by_cases hpa : p a = true
    · rw [if_pos hpa] at h
      exact ih h
    · rw [if_neg hpa] at h
      injection h with h1 h2
      subst h1
      cases hb : p a
      · rfl
      · exact absurd hb hpa

theorem dropWhile_tail_exists (p : Char → Bool) (l : List Char) :
    ∃ t, t ++ l.dropWhile p = l := by
  induction l with
  | nil => exact ⟨[], rfl⟩
  | cons a t ih =>
    by_cases hpa : p a = true
    · obtain ⟨u, hu⟩ := ih
      refine ⟨a :: u, ?_⟩
      rw [List.dropWhile_cons, if_pos hpa, List.cons_append, hu]
    · refine ⟨[], ?_⟩
      rw [List.dropWhile_cons, if_neg hpa, List.nil_append]

theorem trimTrailWS_head {l : List Char} {c : Char} {rest : List Char}
    (h : trimTrailWS l = c :: rest) : l.head? = some c := by
  obtain ⟨t, ht⟩ := dropWhile_tail_exists isPySpace l.reverse
  have hl : l = trimTrailWS l ++ t.reverse := by
    have h2 : l.reverse.reverse = (t ++ l.reverse.dropWhile isPySpace).reverse := by
      rw [ht]
    rw [List.reverse_reverse, List.reverse_append] at h2
    exact h2
  rw [h] at hl
  rw [hl]
  rfl

theorem trimTrailWS_getLast {l : List Char} {c : Char}
    (h : (trimTrailWS l).getLast? = some c) : isPySpace c = false := by
  rw [trimTrailWS, List.getLast?_reverse] at h
  cases hd : l.reverse.dropWhile isPySpace with
  | nil => rw [hd] at h; exact absurd h (by simp)
  | cons a t =>
    rw [hd] at h
    simp only [List.head?_cons, Option.some_inj] at h
    rw [← h]
    exact dropWhile_head_not hd

theorem pyStrip_of_trimmed {l : List Char}
    (hhead : ∀ c, l.head? = some c → isPySpace c = false)
    (hlast : ∀ c, l.getLast? = some c → isPySpace c = false) :
    pyStrip l = l := by
  have h1 : trimLeadWS l = l := by
    rw [trimLeadWS]
    cases l with
    | nil => rfl
    | cons a t =>
      rw [List.dropWhile_cons, hhead a rfl]
      simp
  rw [pyStrip, h1, trimTrailWS]
  cases hr : l.reverse with
  | nil =>
    have h0 : l = [] := by
      have h2 := congrArg List.reverse hr
      rwa [List.reverse_reverse] at h2
    rw [h0]
    rfl
  | cons a t =>
    have hla : l.getLast? = some a := by
      rw [← List.head?_reverse, hr]
      rfl
    rw [List.dropWhile_cons, hlast a hla]
    simp only [Bool.false_eq_true, if_false]
    rw [← hr, List.reverse_reverse]

theorem pyStrip_idem (l : List Char) : pyStrip (pyStrip l) = pyStrip l := by
  apply pyStrip_of_trimmed
  · intro c hc
    cases htl : trimTrailWS (trimLeadWS l) with
    | nil =>
      rw [pyStrip, htl] at hc
      exact absurd hc (by simp)
    | cons a t =>
      rw [pyStrip, htl] at hc
      simp only [List.head?_cons, Option.some_inj] at hc
      have hh : (trimLeadWS l).head? = some a := trimTrailWS_head htl
      cases htl2 : trimLeadWS l with
      | nil => rw [htl2] at hh; exact absurd hh (by simp)
      | cons b u =>
        rw [htl2] at hh
        simp only [List.head?_cons, Option.some_inj] at hh
        rw [trimLeadWS] at htl2
        have hb := dropWhile_head_not htl2
        rw [← hc, ← hh]
        exact hb
  · intro c hc
    rw [pyStrip] at hc
    exact trimTrailWS_getLast hc

theorem guard_isEmpty_false {l : List Char}
    (h : ¬((l.isEmpty || decide (l.length < 3)) = true)) :
    l.isEmpty = false := by
  cases hb : l.isEmpty
  · rfl
  · exact absurd (by simp [hb]) h

theorem fallbackLine_mem {raw : List Char} {pn : Nat} {h : HeadingEntry}
    (hmem : h ∈ fallbackLine raw pn) :
    h.page = pn ∧ h.text = pyStrip raw ∧ (pyStrip raw).isEmpty = false := by
  simp only [fallbackLine] at hmem
  split_ifs at hmem with g1 g2 g3 g4 g5
  · exact absurd hmem (by simp)
  · rw [List.mem_singleton] at hmem
    subst hmem
    exact ⟨rfl, rfl, guard_isEmpty_false g1⟩
  · rw [List.mem_singleton] at hmem
    subst hmem
    exact ⟨rfl, rfl, guard_isEmpty_false g1⟩
  · rw [List.mem_singleton] at hmem
    subst hmem
    exact ⟨rfl, rfl, guard_isEmpty_false g1⟩
  · rw [List.mem_singleton] at hmem
    subst hmem
    exact ⟨rfl, rfl, guard_isEmpty_false g1⟩
  · exact absurd hmem (by simp)

theorem headings_from_text_mem {text : List Char} {pn : Nat} {h : HeadingEntry}
    (hmem : h ∈ extract_headings_from_text text pn) :
    h.page = pn ∧ h.text ≠ [] ∧ pyStrip h.text = h.text := by
  rw [extract_headings_from_text, List.mem_flatMap] at hmem
  obtain ⟨raw, -, hm⟩ := hmem
  obtain ⟨hp, htx, hne⟩ := fallbackLine_mem hm
  refine ⟨hp, ?_, ?_⟩
  · rw [htx]
    intro hc
    rw [hc] at hne
    simp at hne
  · rw [htx]
    exact pyStrip_idem raw

theorem headings_fallback_mem {p : Page} {pn : Nat} {h : HeadingEntry}
    (hmem : h ∈ extract_headings_fallback p pn) :
    h.page = pn ∧ h.text ≠ [] ∧ pyStrip h.text = h.text := by
  rw [extract_headings_fallback] at hmem
  cases htr : p.textResult with
  | error e => simp only [htr] at hmem; exact absurd hmem (by simp)
  | ok text =>
    simp only [htr] at hmem
    by_cases he : text.isEmpty = true
    · rw [if_pos he] at hmem
      exact absurd hmem (by simp)
    · rw [if_neg he] at hmem
      rw [List.mem_flatMap] at hmem
      obtain ⟨raw, -, hm⟩ := hmem
      obtain ⟨hp, htx, hne⟩ := fallbackLine_mem hm
      refine ⟨hp, ?_, ?_⟩
      · rw [htx]
        intro hc
        rw [hc] at hne
        simp at hne
      · rw [htx]
        exact pyStrip_idem raw

theorem headings_from_page_mem {p : Page} {pn : Nat} {h : HeadingEntry}
    (hmem : h ∈ extract_headings_from_page p pn) :
    h.page = pn ∧ h.text ≠ [] ∧ pyStrip h.text = h.text := by
  rw [extract_headings_from_page] at hmem
  cases htr : p.textResult with
  | error e =>
    simp only [htr] at hmem
    exact headings_fallback_mem hmem
  | ok text =>
    simp only [htr] at hmem
    by_cases he : text.isEmpty = true
    · rw [if_pos he] at hmem
      exact absurd hmem (by simp)
    · rw [if_neg he] at hmem
      by_cases hco : p.charsOk = true
      · rw [if_pos hco, List.mem_flatMap] at hmem
        obtain ⟨raw, -, hm⟩ := hmem
        by_cases hguard : ((pyStrip raw).isEmpty ||
            decide ((pyStrip raw).length < 3)) = true
        · rw [if_pos hguard] at hm
          exact absurd hm (by simp)
        · rw [if_neg hguard] at hm
          cases hdet : detect_heading_level (pyStrip raw)
              (sortedFontSizes p.chars) with
          | none => rw [hdet] at hm; exact absurd hm (by simp)
          | some lvl =>
            rw [hdet, List.mem_singleton] at hm
            subst hm
            refine ⟨rfl, ?_, pyStrip_idem raw⟩
            intro hc
            have hc2 : pyStrip raw = [] := hc
            have hg := guard_isEmpty_false hguard
            rw [hc2] at hg
            simp at hg
      · rw [if_neg hco] at hmem
        exact headings_fallback_mem hmem

theorem enumFrom_append (n : Nat) (l1 l2 : List α) :
    enumFrom n (l1 ++ l2) = enumFrom n l1 ++ enumFrom (n + l1.length) l2 := by
  induction l1 generalizing n with
  | nil => simp [enumFrom]
  | cons a l ih =>
    have harith : n + (l.length + 1) = n + 1 + l.length := by omega
    calc enumFrom n ((a :: l) ++ l2)
        = (n, a) :: enumFrom (n + 1) (l ++ l2) := rfl
      _ = (n, a) :: (enumFrom (n + 1) l ++ enumFrom (n + 1 + l.length) l2) := by
          rw [ih (n + 1)]
      _ = enumFrom n (a :: l) ++ enumFrom (n + (a :: l).length) l2 := by
          rw [List.length_cons, harith]
          rfl

theorem enumFrom_flatMap_pages {α : Type} (f : Nat → α → List HeadingEntry)
    (hf : ∀ n a h, h ∈ f n a → h.page = n) :
    ∀ (l : List α) (n : Nat),
      (∀ h ∈ (enumFrom n l).flatMap (fun x => f x.1 x.2), n ≤ h.page) ∧
      ((enumFrom n l).flatMap (fun x => f x.1 x.2)).Pairwise
        (fun a b => a.page ≤ b.page) := by
  intro l
  induction l with
  | nil =>
    intro n
    constructor
    · intro h hm
      simp [enumFrom] at hm
    · simp [enumFrom]
  | cons a l ih =>
    intro n
    have hrest := ih (n + 1)
    constructor
    · intro h hm
      simp only [enumFrom, List.flatMap_cons, List.mem_append] at hm
      rcases hm with hm | hm
      · rw [hf n a h hm]
      · exact Nat.le_of_succ_le (hrest.1 h hm)
    · simp only [enumFrom, List.flatMap_cons]
      rw [List.pairwise_append]
      refine ⟨?_, hrest.2, ?_⟩
      · refine List.pairwise_of_forall_mem_list ?_
        intro x hx y hy
        rw [hf n a x hx, hf n a y hy]
      · intro x hx y hy
        rw [hf n a x hx]
        exact Nat.le_of_succ_le (hrest.1 y hy)

theorem from_page_charsFail {p : Page} (pn : Nat) (h : p.charsOk = false) :
    extract_headings_from_page p pn = extract_headings_fallback p pn := by
  obtain ⟨tr, co, ch⟩ := p
  have hco : co = false := h
  subst hco
  cases tr with
  | error e => rfl
  | ok text =>
    simp only [extract_headings_from_page, extract_headings_fallback]
    cases hemp : text.isEmpty <;> simp

/-- C8: in every Document produced by extraction (on either backend path),
each entry's page is at least 1 and the page values are non-decreasing in
outline order — the outline is the concatenation of the per-page lists in
scan order and is never re-sorted. -/
theorem C8_outline_pages_sorted :
    ∀ pdf : PdfFile,
      (∀ h ∈ (extract_pdf_outline pdf).outline, 1 ≤ h.page) ∧
      (extract_pdf_outline pdf).outline.Pairwise
        (fun a b => a.page ≤ b.page) := by
  intro pdf
  rw [extract_pdf_outline]
  cases hro : pdf.richOpen with
  | ok pages =>
    exact enumFrom_flatMap_pages
      (fun n p => extract_headings_from_page p n)
      (fun n p h hm => (headings_from_page_mem hm).1) pages 1
  | error e =>
    rw [extract_with_pypdf2]
    cases hpo : pdf.plainOpen with
    | error e2 =>
      constructor
      · intro h hm
        exact absurd hm (by simp)
      · simp
    | ok reader =>
      refine enumFrom_flatMap_pages
        (fun n pp => if pp.text.isEmpty = true then []
          else extract_headings_from_text pp.text n) ?_ reader.pages 1
      intro n pp h hm
      have hm2 : h ∈ (if pp.text.isEmpty = true then ([] : List HeadingEntry)
          else extract_headings_from_text pp.text n) := hm
      by_cases he : pp.text.isEmpty = true
      · rw [if_pos he] at hm2
        exact absurd hm2 (by simp)
      · rw [if_neg he] at hm2
        exact (headings_from_text_mem hm2).1

/-- C8 witness: instantiation on a one-page document. -/
theorem C8_witness :
    1 ≤ (⟨"H1".data, "1. Introduction".data, 1⟩ : HeadingEntry).page :=
  (C8_outline_pages_sorted pdfOnePage).1
    ⟨"H1".data, "1. Introduction".data, 1⟩ (by decide)

/-- C9: on the rich path, if `page.chars` raises for one specific page,
only that page falls back to the reduced cascade; headings already
collected from earlier pages are retained unchanged, and subsequent pages
continue on the rich path. -/
theorem C9_single_page_fallback :
    ∀ (pdf : PdfFile) (l1 l2 : List Page) (p : Page),
      pdf.richOpen = .ok (l1 ++ p :: l2) → p.charsOk = false →
      (extract_pdf_outline pdf).outline =
        (enumFrom 1 l1).flatMap (fun np => extract_headings_from_page np.2 np.1)
        ++ extract_headings_fallback p (1 + l1.length)
        ++ (enumFrom (1 + l1.length + 1) l2).flatMap
            (fun np => extract_headings_from_page np.2 np.1) := by
  intro pdf l1 l2 p hro hc
  rw [extract_pdf_outline]
  simp only [hro]
  rw [enumFrom_append]
  simp only [enumFrom]
  rw [List.flatMap_append, List.flatMap_cons]
  rw [from_page_charsFail (1 + l1.length) hc]
  rw [List.append_assoc]

/-- C9 witness: three concrete pages, the middle one failing; page 1's H1
is retained, page 2 is classified by the reduced cascade, page 3 continues
on the rich path. -/
theorem C9_witness :
    (extract_pdf_outline pdfMidFail).outline =
      [⟨"H1".data, "1. Introduction".data, 1⟩,
       ⟨"H2".data, "1.1 Background".data, 2⟩,
       ⟨"H3".data, "1.1.1 Related Work".data, 3⟩] :=
  (C9_single_page_fallback pdfMidFail [pgIntro] [pgDeep] pgBroken rfl
    rfl).trans (by decide)

/-- C10: every heading entry emitted into the outline, on any extraction
path, has text that is non-empty and equal to its own stripped form —
each path strips the line and skips blank lines before classification. -/
theorem C10_outline_text_trimmed :
    ∀ (pdf : PdfFile) (h : HeadingEntry),
      h ∈ (extract_pdf_outline pdf).outline →
      h.text ≠ [] ∧ pyStrip h.text = h.text := by
  intro pdf h hm
  rw [extract_pdf_outline] at hm
  cases hro : pdf.richOpen with
  | ok pages =>
    simp only [hro] at hm
    rw [List.mem_flatMap] at hm
    obtain ⟨np, -, hm⟩ := hm
    exact (headings_from_page_mem hm).2
  | error e =>
    simp only [hro] at hm
    rw [extract_with_pypdf2] at hm
    cases hpo : pdf.plainOpen with
    | error e2 =>
      simp only [hpo] at hm
      exact absurd hm (by simp)
    | ok reader =>
      simp only [hpo] at hm
      rw [List.mem_flatMap] at hm
      obtain ⟨np, -, hm⟩ := hm
      by_cases he : np.2.text.isEmpty = true
      · rw [if_pos he] at hm
        exact absurd hm (by simp)
      · rw [if_neg he] at hm
        exact (headings_from_text_mem hm).2

/-- C10 witness: the whitespace-padded all-caps line is emitted stripped. -/
theorem C10_witness :
    ("SUMMARY".data ≠ ([] : List Char)) ∧
    pyStrip "SUMMARY".data = "SUMMARY".data :=
  C10_outline_text_trimmed pdfOnePageB ⟨"H1".data, "SUMMARY".data, 1⟩
    (by decide)
